import Mathlib

/-!
Shallow embedding of `src/backend/services/voice_service.py` (class
`VoiceService`), the voice-bridge core of the Meeting-companion repository.

The stateful handler `handle_voice_stream` is embedded as a pure function
from its inputs (whether the upstream `start` call succeeds, and the finite
sequence of messages the client websocket yields) to the linear trace of
observable events the handler performs, in program order.  The pure helper
`process_deepgram_message` is embedded as a function from a provider event
to the list of outbound JSON messages it sends.
-/

namespace VoiceService

/-- Outcome of `json.loads` on a text frame followed by the `.get` probe:
the call raises (`failure`), returns a non-dict value on which `.get`
raises `AttributeError` (`nonDict`), or returns a dict whose `.get` of the
key `type` is the given optional string (`dict`). -/
inductive Decoded where
  | failure : Decoded
  | nonDict : Decoded
  | dict : Option String → Decoded
deriving DecidableEq, Repr

/-- One result of `await websocket.receive()` in the relay loop:
a disconnect notification, a binary frame, a text frame (carrying its
decode outcome), or the receive call itself raising (with a flag telling
whether the exception is `websockets.exceptions.ConnectionClosedOK`). -/
inductive ClientMsg where
  | disconnect : ClientMsg
  | bytes : List Nat → ClientMsg
  | text : Decoded → ClientMsg
  | transportError : Bool → ClientMsg
deriving DecidableEq, Repr

/-- Observable events of one `handle_voice_stream` invocation, in program
order: map insert/remove, the upstream `start` call and its outcome, task
creation for the keepalive and consumer loops, an audio frame forwarded via
`deepgram_connection.send`, the log-only handling of `stop_recording`, the
sentinel `put(None)`, the consumer task `cancel()`, the upstream `finish()`
call, the two `except` clauses, and the keepalive `cancel()`. -/
inductive Ev where
  | insertConn : Ev
  | startUpstream : Bool → Ev
  | startKeepalive : Ev
  | startConsumer : Ev
  | sendAudio : List Nat → Ev
  | logStopRecording : Ev
  | putSentinel : Ev
  | cancelConsumer : Ev
  | finish : Ev
  | catchClosedOK : Ev
  | catchException : Ev
  | cancelKeepalive : Ev
  | removeConn : Ev
deriving DecidableEq, Repr

/-- How the `while True` relay loop ends on a given finite input: a
disconnect message breaks out normally, an exception escapes (flag: was it
`ConnectionClosedOK`), or the input list ran out with the loop still
waiting for the next message. -/
inductive RelayExit where
  | normal : RelayExit
  | exn : Bool → RelayExit
  | pending : RelayExit
deriving DecidableEq, Repr

/-- The relay loop of `handle_voice_stream` (lines 86-99): per received
message, a disconnect breaks; a binary frame is sent upstream; a text
frame is run through `json.loads` — a raise escapes the loop, a dict with
`type == "stop_recording"` is only logged, any other dict is ignored.
Returns the events performed and how the loop ended. -/
def relayTrace : List ClientMsg → List Ev × RelayExit
  | [] => ([], RelayExit.pending)
  | ClientMsg.disconnect :: _ => ([], RelayExit.normal)
  | ClientMsg.bytes b :: ms =>
      let r := relayTrace ms
      (Ev.sendAudio b :: r.1, r.2)
  | ClientMsg.text Decoded.failure :: _ => ([], RelayExit.exn false)
  | ClientMsg.text Decoded.nonDict :: _ => ([], RelayExit.exn false)
  | ClientMsg.text (Decoded.dict t) :: ms =>
      let r := relayTrace ms
      (if t = some "stop_recording" then Ev.logStopRecording :: r.1 else r.1, r.2)
  | ClientMsg.transportError ok :: _ => ([], RelayExit.exn ok)

/-- Result of one `handle_voice_stream` invocation: the event trace, and
whether the handler returned (`false` means the loop is still awaiting the
next client message, so the `finally` block has not run). -/
structure Run where
  trace : List Ev
  returned : Bool
deriving DecidableEq, Repr

/-- `handle_voice_stream` (lines 18-118).  The map entry is inserted, the
upstream connection is started (`startOk` is the outcome of
`deepgram_connection.start(options)`); on failure the raised exception is
caught by `except Exception` and the `finally` block runs with no
keepalive handle in scope.  On success both loop tasks start, the relay
loop runs; a normal break performs the cleanup lines 102-107, an escaping
exception reaches one of the two `except` clauses, and in either case the
`finally` block cancels the keepalive task and deletes the map entry. -/
def handleVoiceStream (startOk : Bool) (msgs : List ClientMsg) : Run :=
  if startOk then
    let pre := [Ev.insertConn, Ev.startUpstream true, Ev.startKeepalive, Ev.startConsumer]
    let r := relayTrace msgs
    match r.2 with
    | RelayExit.pending => ⟨pre ++ r.1, false⟩
    | RelayExit.normal =>
        ⟨pre ++ r.1 ++ [Ev.putSentinel, Ev.cancelConsumer, Ev.finish,
          Ev.cancelKeepalive, Ev.removeConn], true⟩
    | RelayExit.exn true =>
        ⟨pre ++ r.1 ++ [Ev.catchClosedOK, Ev.cancelKeepalive, Ev.removeConn], true⟩
    | RelayExit.exn false =>
        ⟨pre ++ r.1 ++ [Ev.catchException, Ev.cancelKeepalive, Ev.removeConn], true⟩
  else
    ⟨[Ev.insertConn, Ev.startUpstream false, Ev.catchException, Ev.removeConn], true⟩

/-- Audio payloads forwarded upstream, in trace order. -/
def sendsOf : List Ev → List (List Nat)
  | [] => []
  | Ev.sendAudio b :: t => b :: sendsOf t
  | _ :: t => sendsOf t

/-- Events of the trace that are operations on the upstream connection
(`send` and `finish`). -/
def upstreamOps (t : List Ev) : List Ev :=
  t.filter fun e => match e with
    | Ev.sendAudio _ => true
    | Ev.finish => true
    | _ => false

/-- Effect of one trace event on the `active_connections` map, restricted
to the key `cid` of this invocation (the map is modelled as the list of
present keys): `insertConn` stores the key, `removeConn` performs the
guarded `del`. -/
def applyEv (cid : Nat) (m : List Nat) : Ev → List Nat
  | Ev.insertConn => if cid ∈ m then m else m ++ [cid]
  | Ev.removeConn => m.filter (fun k => k ≠ cid)
  | _ => m

/-- The `active_connections` key set after a trace, starting from `m`. -/
def finalMap (cid : Nat) (m : List Nat) (t : List Ev) : List Nat :=
  t.foldl (applyEv cid) m

/-- One transcription alternative of a provider event
(`alternatives[0].transcript`, `.confidence`). Confidence is carried
as an uninterpreted value. -/
structure Alt where
  transcript : String
  confidence : Int
deriving DecidableEq, Repr

/-- The `channel` attribute of a provider event. -/
structure Channel where
  alternatives : List Alt
deriving DecidableEq, Repr

/-- The nested `metadata` attribute; `is_final` is `none` when the
attribute is absent (so `getattr` falls back to `False`). -/
structure MetaData where
  is_final : Option Bool
deriving DecidableEq, Repr

/-- A value popped from the message queue, as probed by
`process_deepgram_message`: optional truthy `channel`, optional `is_final`
attribute, optional truthy `metadata`, optional `type` attribute, optional
`start` attribute.  `none` in a field models the attribute being absent or
falsy, matching the `hasattr`/`getattr` probes in the source. -/
structure DgEvent where
  channel : Option Channel
  is_final : Option Bool
  metadata : Option MetaData
  type : Option String
  start : Option Int
deriving DecidableEq, Repr

/-- Outbound JSON messages the service can send to the client.  The
`errorMsg` shape is the `error` message of the external interface table;
it is included so that emission (or non-emission) of `error` messages is
expressible. -/
inductive OutMsg where
  | transcript : String → Int → Bool → Int → OutMsg
  | utterance_end : OutMsg
  | speech_final : OutMsg
  | errorMsg : String → OutMsg
deriving DecidableEq, Repr

/-- The whitespace set of Python `str.strip()` on `str`, i.e. the
characters for which CPython `Py_UNICODE_ISSPACE` holds: U+0009-U+000D,
U+001C-U+001F, space, U+0085, U+00A0, U+1680, U+2000-U+200A, U+2028,
U+2029, U+202F, U+205F and U+3000. -/
def isPyWhitespace (c : Char) : Bool :=
  let n := c.toNat
  (9 ≤ n && n ≤ 13) || (28 ≤ n && n ≤ 31) || n = 32 || n = 133 || n = 160 ||
  n = 5760 || (8192 ≤ n && n ≤ 8202) || n = 8232 || n = 8233 || n = 8239 ||
  n = 8287 || n = 12288

/-- Python `text.strip()` on the character list. -/
def pyStripList (cs : List Char) : List Char :=
  ((cs.dropWhile isPyWhitespace).reverse.dropWhile isPyWhitespace).reverse

/-- Python `text.strip()`. -/
def pyStrip (s : String) : String :=
  String.mk (pyStripList s.data)

/-- Lines 134-137: `is_final = getattr(data, "is_final", False)`, then if
that value is falsy and `data.metadata` is present and truthy,
`is_final = getattr(data.metadata, "is_final", False)`. -/
def computeIsFinal (d : DgEvent) : Bool :=
  let f := d.is_final.getD false
  if f then f
  else
    match d.metadata with
    | some md => md.is_final.getD false
    | none => false

/-- The `channel` block of `process_deepgram_message` (lines 127-152): if
the event has a truthy `channel` with a nonempty `alternatives` list, one
`transcript` message is sent unless the stripped text is empty. -/
def channelMsgs (d : DgEvent) : List OutMsg :=
  match d.channel with
  | some ⟨alt :: _⟩ =>
      if pyStrip alt.transcript ≠ "" then
        [OutMsg.transcript alt.transcript alt.confidence (computeIsFinal d)
          (d.start.getD 0)]
      else []
  | some ⟨[]⟩ => []
  | none => []

/-- The `type` block of `process_deepgram_message` (lines 155-167): a
`type` attribute equal to `UtteranceEnd` or `SpeechFinal` sends the
corresponding message; any other value sends nothing. -/
def typeMsgs (d : DgEvent) : List OutMsg :=
  match d.type with
  | some ty =>
      if ty = "UtteranceEnd" then [OutMsg.utterance_end]
      else if ty = "SpeechFinal" then [OutMsg.speech_final]
      else []
  | none => []

/-- `process_deepgram_message` (lines 121-170) as the list of outbound
messages sent for one queue item: the `channel` block runs first, then
(not `elif`) the `type` block. -/
def process_deepgram_message (d : DgEvent) : List OutMsg :=
  channelMsgs d ++ typeMsgs d

/-- The outbound `transcript` messages among a message list. -/
def transcriptMsgs (ms : List OutMsg) : List OutMsg :=
  ms.filter fun m => match m with
    | OutMsg.transcript _ _ _ _ => true
    | _ => false

/-- The `send_task` consumer loop (lines 76-81) on a finite queue content:
each `some` item is processed and its outbound messages sent, the `none`
sentinel breaks the loop.  Returns the outbound messages in order and
whether the loop stopped via the sentinel. -/
def sendTaskRun : List (Option DgEvent) → List OutMsg × Bool
  | [] => ([], false)
  | none :: _ => ([], true)
  | some d :: rest =>
      let r := sendTaskRun rest
      (process_deepgram_message d ++ r.1, r.2)

/-! ### Helper lemmas -/

theorem mem_relayTrace_fst {msgs : List ClientMsg} {e : Ev}
    (he : e ∈ (relayTrace msgs).1) :
    (∃ b, e = Ev.sendAudio b) ∨ e = Ev.logStopRecording := by
  induction msgs with
  | nil => simp [relayTrace] at he
  | cons m ms ih =>
    cases m with
    | disconnect => simp [relayTrace] at he
    | bytes b =>
      simp only [relayTrace, List.mem_cons] at he
      rcases he with h | h
      · exact Or.inl ⟨b, h⟩
      · exact ih h
    | text d =>
      cases d with
      | failure => simp [relayTrace] at he
      | nonDict => simp [relayTrace] at he
      | dict t =>
        simp only [relayTrace] at he
        split at he
        · rcases List.mem_cons.mp he with h | h
          · exact Or.inr h
          · exact ih h
        · exact ih he
    | transportError ok => simp [relayTrace] at he

theorem putSentinel_not_mem_relayTrace (msgs : List ClientMsg) :
    Ev.putSentinel ∉ (relayTrace msgs).1 := by
  intro h
  rcases mem_relayTrace_fst h with ⟨b, hb⟩ | h <;> simp_all

theorem finish_not_mem_relayTrace (msgs : List ClientMsg) :
    Ev.finish ∉ (relayTrace msgs).1 := by
  intro h
  rcases mem_relayTrace_fst h with ⟨b, hb⟩ | h <;> simp_all

theorem relayTrace_append {pre : List ClientMsg}
    (h : (relayTrace pre).2 = RelayExit.pending) (rest : List ClientMsg) :
    relayTrace (pre ++ rest) =
      ((relayTrace pre).1 ++ (relayTrace rest).1, (relayTrace rest).2) := by
  induction pre with
  | nil => simp [relayTrace]
  | cons m ms ih =>
    cases m with
    | disconnect => simp [relayTrace] at h
    | bytes b =>
      simp only [relayTrace, List.append_eq] at h ⊢
      rw [ih h]
      simp
    | text d =>
      cases d with
      | failure => simp [relayTrace] at h
      | nonDict => simp [relayTrace] at h
      | dict t =>
        simp only [relayTrace, List.append_eq] at h ⊢
        rw [ih h]
        split <;> simp
    | transportError ok => simp [relayTrace] at h

theorem relayTrace_map_bytes (bs : List (List Nat)) :
    relayTrace (bs.map ClientMsg.bytes) = (bs.map Ev.sendAudio, RelayExit.pending) := by
  induction bs with
  | nil => simp [relayTrace]
  | cons b bs ih => simp [relayTrace, ih]

theorem relayTrace_stop_cons (ms : List ClientMsg) :
    relayTrace (ClientMsg.text (Decoded.dict (some "stop_recording")) :: ms) =
      (Ev.logStopRecording :: (relayTrace ms).1, (relayTrace ms).2) := by
  simp [relayTrace]

theorem sendsOf_append (t₁ t₂ : List Ev) :
    sendsOf (t₁ ++ t₂) = sendsOf t₁ ++ sendsOf t₂ := by
  induction t₁ with
  | nil => rfl
  | cons e t ih => cases e <;> simp [sendsOf, ih]

theorem sendsOf_map_sendAudio (bs : List (List Nat)) :
    sendsOf (bs.map Ev.sendAudio) = bs := by
  induction bs with
  | nil => rfl
  | cons b bs ih => simp [sendsOf, ih]

theorem channelMsgs_of_cons {d : DgEvent} {alt : Alt} {tl : List Alt}
    (hd : d.channel = some ⟨alt :: tl⟩) :
    channelMsgs d =
      if pyStrip alt.transcript ≠ "" then
        [OutMsg.transcript alt.transcript alt.confidence (computeIsFinal d)
          (d.start.getD 0)]
      else [] := by
  unfold channelMsgs
  rw [hd]

theorem channelMsgs_of_nil {d : DgEvent} (hd : d.channel = some ⟨[]⟩) :
    channelMsgs d = [] := by
  unfold channelMsgs
  rw [hd]

theorem channelMsgs_of_none {d : DgEvent} (hd : d.channel = none) :
    channelMsgs d = [] := by
  unfold channelMsgs
  rw [hd]

theorem typeMsgs_of_some {d : DgEvent} {ty : String} (hd : d.type = some ty) :
    typeMsgs d =
      if ty = "UtteranceEnd" then [OutMsg.utterance_end]
      else if ty = "SpeechFinal" then [OutMsg.speech_final]
      else [] := by
  unfold typeMsgs
  rw [hd]

theorem typeMsgs_of_none {d : DgEvent} (hd : d.type = none) :
    typeMsgs d = [] := by
  unfold typeMsgs
  rw [hd]

/-! ### Claim theorems -/

/-- Claim C1: the claim says `finish()` is invoked exactly once on every
exit path, including error paths.  At the concrete input where the client
sends one malformed JSON text frame, the handler returns (the exception is
caught and logged) with `finish()` invoked zero times, so the code diverges
from the claim on this error path. -/
theorem c1_finish_skipped_on_decode_error :
    (handleVoiceStream true [ClientMsg.text Decoded.failure]).returned = true ∧
    (handleVoiceStream true [ClientMsg.text Decoded.failure]).trace.count Ev.finish = 0 ∧
    Ev.catchException ∈ (handleVoiceStream true [ClientMsg.text Decoded.failure]).trace := by
  decide

/-- Claim C2 counterexample: a text frame whose payload fails to decode as
JSON is followed by a binary frame; the relay loop terminates on the decode
failure (the handler returns through the generic exception clause) and the
subsequent frame is never forwarded, refuting that decode failures are
ignored and the loop continues. -/
theorem c2_decode_failure_terminates :
    handleVoiceStream true [ClientMsg.text Decoded.failure, ClientMsg.bytes [7]] =
      ⟨[Ev.insertConn, Ev.startUpstream true, Ev.startKeepalive, Ev.startConsumer,
        Ev.catchException, Ev.cancelKeepalive, Ev.removeConn], true⟩ := by
  decide

/-- Claim C2 amended: a text frame that decodes to a JSON object is logged
or ignored and never changes the fate of the relay loop nor forwards
anything, while a text frame whose payload fails to decode as JSON — and
likewise one that decodes to a non-object, on which the `.get` probe
raises — raises an exception that terminates the relay loop and the
handler, which returns through the generic exception clause with no later
frame forwarded. -/
theorem c2_amended_decode_behavior (t : Option String) (ms : List ClientMsg) :
    (relayTrace (ClientMsg.text (Decoded.dict t) :: ms)).2 = (relayTrace ms).2 ∧
    sendsOf (relayTrace (ClientMsg.text (Decoded.dict t) :: ms)).1 =
      sendsOf (relayTrace ms).1 ∧
    (handleVoiceStream true (ClientMsg.text Decoded.failure :: ms)).returned = true ∧
    Ev.catchException ∈ (handleVoiceStream true (ClientMsg.text Decoded.failure :: ms)).trace ∧
    sendsOf (handleVoiceStream true (ClientMsg.text Decoded.failure :: ms)).trace = [] ∧
    (handleVoiceStream true (ClientMsg.text Decoded.nonDict :: ms)).returned = true ∧
    Ev.catchException ∈ (handleVoiceStream true (ClientMsg.text Decoded.nonDict :: ms)).trace ∧
    sendsOf (handleVoiceStream true (ClientMsg.text Decoded.nonDict :: ms)).trace = [] := by
  refine ⟨?_, ?_, ?_, ?_, ?_, ?_, ?_, ?_⟩
  · simp only [relayTrace]
  · simp only [relayTrace]
    split <;> simp [sendsOf]
  · rfl
  · simp [handleVoiceStream, relayTrace]
  · rfl
  · rfl
  · simp [handleVoiceStream, relayTrace]
  · rfl

/-- Claim C3 counterexample: on a normal client disconnect, the sentinel
`put(None)` happens strictly before `finish()`, refuting that the sentinel
is pushed only after the Upstream Session is closed. -/
theorem c3_sentinel_before_finish :
    (handleVoiceStream true [ClientMsg.disconnect]).trace =
      [Ev.insertConn, Ev.startUpstream true, Ev.startKeepalive, Ev.startConsumer,
        Ev.putSentinel, Ev.cancelConsumer, Ev.finish, Ev.cancelKeepalive, Ev.removeConn] ∧
    (handleVoiceStream true [ClientMsg.disconnect]).trace.indexOf Ev.putSentinel <
      (handleVoiceStream true [ClientMsg.disconnect]).trace.indexOf Ev.finish := by
  decide

/-- Claim C3 amended: on every normal relay exit the sentinel is pushed
exactly once and `finish()` is invoked exactly once, with the sentinel push
immediately preceding the consumer-task cancel and the `finish()` call (so
the push happens before, not after, the Upstream Session is closed); the
consumer loop stops as soon as it pops the sentinel; and on every
exception exit of the relay loop neither the sentinel push nor `finish()`
happens. -/
theorem c3_amended_sentinel (msgs : List ClientMsg)
    (h : (relayTrace msgs).2 = RelayExit.normal) :
    (handleVoiceStream true msgs).trace.count Ev.putSentinel = 1 ∧
    (handleVoiceStream true msgs).trace.count Ev.finish = 1 ∧
    (∃ p s, (handleVoiceStream true msgs).trace =
      p ++ [Ev.putSentinel, Ev.cancelConsumer, Ev.finish] ++ s) ∧
    (∀ rest, sendTaskRun (none :: rest) = ([], true)) ∧
    (∀ (ms : List ClientMsg) (ok : Bool), (relayTrace ms).2 = RelayExit.exn ok →
      (handleVoiceStream true ms).trace.count Ev.putSentinel = 0 ∧
      (handleVoiceStream true ms).trace.count Ev.finish = 0) := by
  have htr : (handleVoiceStream true msgs).trace =
      ([Ev.insertConn, Ev.startUpstream true, Ev.startKeepalive, Ev.startConsumer] ++
        (relayTrace msgs).1) ++ [Ev.putSentinel, Ev.cancelConsumer, Ev.finish] ++
        [Ev.cancelKeepalive, Ev.removeConn] := by
    simp only [handleVoiceStream]
    rw [h]
    simp
  refine ⟨?_, ?_, ⟨_, _, htr⟩, fun rest => rfl, ?_⟩
  · rw [htr]
    simp [List.count_append, List.count_cons,
      List.count_eq_zero.mpr (putSentinel_not_mem_relayTrace msgs)]
  · rw [htr]
    simp [List.count_append, List.count_cons,
      List.count_eq_zero.mpr (finish_not_mem_relayTrace msgs)]
  · intro ms ok hex
    cases ok with
    | true =>
      have htr2 : (handleVoiceStream true ms).trace =
          ([Ev.insertConn, Ev.startUpstream true, Ev.startKeepalive, Ev.startConsumer] ++
            (relayTrace ms).1) ++ [Ev.catchClosedOK, Ev.cancelKeepalive, Ev.removeConn] := by
        simp only [handleVoiceStream]
        rw [hex]
        simp
      rw [htr2]
      constructor <;>
        simp [List.count_append, List.count_cons,
          List.count_eq_zero.mpr (putSentinel_not_mem_relayTrace ms),
          List.count_eq_zero.mpr (finish_not_mem_relayTrace ms)]
    | false =>
      have htr2 : (handleVoiceStream true ms).trace =
          ([Ev.insertConn, Ev.startUpstream true, Ev.startKeepalive, Ev.startConsumer] ++
            (relayTrace ms).1) ++ [Ev.catchException, Ev.cancelKeepalive, Ev.removeConn] := by
        simp only [handleVoiceStream]
        rw [hex]
        simp
      rw [htr2]
      constructor <;>
        simp [List.count_append, List.count_cons,
          List.count_eq_zero.mpr (putSentinel_not_mem_relayTrace ms),
          List.count_eq_zero.mpr (finish_not_mem_relayTrace ms)]

/-- Claim C3 amended, witness at the concrete one-message run consisting of
a client disconnect. -/
theorem c3_amended_sentinel_witness :
    (relayTrace [ClientMsg.disconnect]).2 = RelayExit.normal ∧
    ((handleVoiceStream true [ClientMsg.disconnect]).trace.count Ev.putSentinel = 1 ∧
    (handleVoiceStream true [ClientMsg.disconnect]).trace.count Ev.finish = 1 ∧
    (∃ p s, (handleVoiceStream true [ClientMsg.disconnect]).trace =
      p ++ [Ev.putSentinel, Ev.cancelConsumer, Ev.finish] ++ s) ∧
    (∀ rest, sendTaskRun (none :: rest) = ([], true)) ∧
    (∀ (ms : List ClientMsg) (ok : Bool), (relayTrace ms).2 = RelayExit.exn ok →
      (handleVoiceStream true ms).trace.count Ev.putSentinel = 0 ∧
      (handleVoiceStream true ms).trace.count Ev.finish = 0)) :=
  ⟨rfl, c3_amended_sentinel [ClientMsg.disconnect] rfl⟩

/-- Claim C4: the claim says a `stop_recording` control message causes a
finalize/close-utterance operation on the upstream handle.  At the concrete
input consisting of a `stop_recording` frame followed by a disconnect, the
handler performs exactly the same upstream operations as the run without
the `stop_recording` frame: the message is received and logged but no
upstream operation at all is issued in response. -/
theorem c4_stop_recording_no_upstream_op :
    upstreamOps (handleVoiceStream true
        [ClientMsg.text (Decoded.dict (some "stop_recording")), ClientMsg.disconnect]).trace =
      upstreamOps (handleVoiceStream true [ClientMsg.disconnect]).trace ∧
    Ev.logStopRecording ∈ (handleVoiceStream true
        [ClientMsg.text (Decoded.dict (some "stop_recording")), ClientMsg.disconnect]).trace := by
  decide

/-- Claim C5: after any already-processed message prefix that has not ended
the loop, a `stop_recording` control frame followed by binary frames leaves
the relay loop running (the handler has not returned) and every one of the
subsequent binary frames is forwarded upstream, in receipt order, after the
frames of the prefix. -/
theorem c5_stop_recording_keeps_forwarding (pre : List ClientMsg) (bs : List (List Nat))
    (h : (relayTrace pre).2 = RelayExit.pending) :
    (handleVoiceStream true
      (pre ++ ClientMsg.text (Decoded.dict (some "stop_recording")) ::
        bs.map ClientMsg.bytes)).returned = false ∧
    sendsOf (handleVoiceStream true
      (pre ++ ClientMsg.text (Decoded.dict (some "stop_recording")) ::
        bs.map ClientMsg.bytes)).trace = sendsOf (relayTrace pre).1 ++ bs := by
  have hrel : relayTrace
      (pre ++ ClientMsg.text (Decoded.dict (some "stop_recording")) ::
        bs.map ClientMsg.bytes) =
      ((relayTrace pre).1 ++ Ev.logStopRecording :: bs.map Ev.sendAudio,
        RelayExit.pending) := by
    rw [relayTrace_append h, relayTrace_stop_cons, relayTrace_map_bytes]
  have htr : handleVoiceStream true
      (pre ++ ClientMsg.text (Decoded.dict (some "stop_recording")) ::
        bs.map ClientMsg.bytes) =
      ⟨[Ev.insertConn, Ev.startUpstream true, Ev.startKeepalive, Ev.startConsumer] ++
        ((relayTrace pre).1 ++ Ev.logStopRecording :: bs.map Ev.sendAudio), false⟩ := by
    simp only [handleVoiceStream]
    rw [hrel]
    simp
  rw [htr]
  refine ⟨rfl, ?_⟩
  show sendsOf ([Ev.insertConn, Ev.startUpstream true, Ev.startKeepalive, Ev.startConsumer] ++
    ((relayTrace pre).1 ++ Ev.logStopRecording :: bs.map Ev.sendAudio)) =
    sendsOf (relayTrace pre).1 ++ bs
  rw [sendsOf_append, sendsOf_append]
  show [] ++ (sendsOf (relayTrace pre).1 ++ sendsOf (Ev.logStopRecording :: bs.map Ev.sendAudio)) =
    sendsOf (relayTrace pre).1 ++ bs
  rw [show sendsOf (Ev.logStopRecording :: bs.map Ev.sendAudio) =
    sendsOf (bs.map Ev.sendAudio) from rfl, sendsOf_map_sendAudio]
  simp

/-- Claim C5, witness: from an empty prefix, a `stop_recording` frame then
two binary frames leaves the handler running with both frames forwarded in
order. -/
theorem c5_stop_recording_keeps_forwarding_witness :
    (relayTrace ([] : List ClientMsg)).2 = RelayExit.pending ∧
    ((handleVoiceStream true
      (([] : List ClientMsg) ++ ClientMsg.text (Decoded.dict (some "stop_recording")) ::
        [[1], [2]].map ClientMsg.bytes)).returned = false ∧
    sendsOf (handleVoiceStream true
      (([] : List ClientMsg) ++ ClientMsg.text (Decoded.dict (some "stop_recording")) ::
        [[1], [2]].map ClientMsg.bytes)).trace =
      sendsOf (relayTrace ([] : List ClientMsg)).1 ++ [[1], [2]]) :=
  ⟨rfl, c5_stop_recording_keeps_forwarding [] [[1], [2]] rfl⟩

/-- Claim C6 counterexample: at a concrete provider error event (no
`channel`, `type` attribute `Error`), `process_deepgram_message` sends no
outbound message at all — in particular no message of type `error` — and
the consumer loop keeps running past the event, stopping only at the
sentinel. -/
theorem c6_error_event_not_forwarded :
    process_deepgram_message ⟨none, none, none, some "Error", none⟩ = [] ∧
    sendTaskRun [some ⟨none, none, none, some "Error", none⟩, none] = ([], true) := by
  decide

/-- Claim C6 amended: a provider error event is logged and enqueued, but
the consumer never sends any outbound `error` message for any queue item
(no code path produces one), and processing an item never changes whether
the consumer loop stops — only the sentinel does. -/
theorem c6_amended_no_error_outbound (d : DgEvent) (s : String)
    (rest : List (Option DgEvent)) :
    OutMsg.errorMsg s ∉ process_deepgram_message d ∧
    (sendTaskRun (some d :: rest)).2 = (sendTaskRun rest).2 := by
  refine ⟨?_, rfl⟩
  intro hmem
  unfold process_deepgram_message at hmem
  rcases List.mem_append.mp hmem with hc | ht
  · cases hd : d.channel with
    | none => rw [channelMsgs_of_none hd] at hc; simp at hc
    | some ch =>
      obtain ⟨alts⟩ := ch
      cases alts with
      | nil => rw [channelMsgs_of_nil hd] at hc; simp at hc
      | cons alt tl =>
        rw [channelMsgs_of_cons hd] at hc
        split at hc <;> simp at hc
  · cases hd : d.type with
    | none => rw [typeMsgs_of_none hd] at ht; simp at ht
    | some ty =>
      rw [typeMsgs_of_some hd] at ht
      split at ht
      · simp at ht
      · split at ht <;> simp at ht

/-- Claim C7 counterexample: at a concrete transcript event with non-empty
text whose own `is_final` flag is present and `False` while the nested
metadata flag is `True`, the single outbound transcript message carries
`is_final = True`, which does not mirror the source event flag. -/
theorem c7_is_final_not_mirrored :
    process_deepgram_message
        ⟨some ⟨[⟨"hi", 9⟩]⟩, some false, some ⟨some true⟩, none, some 0⟩ =
      [OutMsg.transcript "hi" 9 true 0] ∧
    (⟨some ⟨[⟨"hi", 9⟩]⟩, some false, some ⟨some true⟩, none,
        some 0⟩ : DgEvent).is_final = some false := by
  decide

/-- Claim C7 amended: for a transcript event with a first alternative,
empty or whitespace-only text after stripping produces no outbound
transcript message, and non-empty text produces exactly one, whose
`is_final` field carries the computed flag (the event flag when true,
otherwise the metadata fallback). -/
theorem c7_amended_empty_suppression (d : DgEvent) (alt : Alt) (tl : List Alt)
    (hch : d.channel = some ⟨alt :: tl⟩) :
    (pyStrip alt.transcript = "" →
      transcriptMsgs (process_deepgram_message d) = []) ∧
    (pyStrip alt.transcript ≠ "" →
      transcriptMsgs (process_deepgram_message d) =
        [OutMsg.transcript alt.transcript alt.confidence (computeIsFinal d)
          (d.start.getD 0)]) := by
  have htype : transcriptMsgs (typeMsgs d) = [] := by
    cases hd : d.type with
    | none => rw [typeMsgs_of_none hd]; rfl
    | some ty =>
      rw [typeMsgs_of_some hd]
      split
      · rfl
      · split <;> rfl
  have hsplit : transcriptMsgs (process_deepgram_message d) =
      transcriptMsgs (channelMsgs d) := by
    unfold process_deepgram_message transcriptMsgs
    rw [List.filter_append]
    unfold transcriptMsgs at htype
    rw [htype, List.append_nil]
  constructor
  · intro he
    rw [hsplit, channelMsgs_of_cons hch, if_neg (by simp [he])]
    rfl
  · intro hne
    rw [hsplit, channelMsgs_of_cons hch, if_pos hne]
    rfl

/-- Claim C7 amended, witness at a concrete event with non-empty text. -/
theorem c7_amended_empty_suppression_witness :
    (⟨some ⟨[⟨"hey", 3⟩]⟩, some true, none, none, none⟩ : DgEvent).channel =
      some ⟨[(⟨"hey", 3⟩ : Alt)]⟩ ∧
    ((pyStrip (⟨"hey", 3⟩ : Alt).transcript = "" →
      transcriptMsgs (process_deepgram_message
        ⟨some ⟨[⟨"hey", 3⟩]⟩, some true, none, none, none⟩) = []) ∧
    (pyStrip (⟨"hey", 3⟩ : Alt).transcript ≠ "" →
      transcriptMsgs (process_deepgram_message
        ⟨some ⟨[⟨"hey", 3⟩]⟩, some true, none, none, none⟩) =
        [OutMsg.transcript (⟨"hey", 3⟩ : Alt).transcript
          (⟨"hey", 3⟩ : Alt).confidence
          (computeIsFinal ⟨some ⟨[⟨"hey", 3⟩]⟩, some true, none, none, none⟩)
          ((⟨some ⟨[⟨"hey", 3⟩]⟩, some true, none, none,
            none⟩ : DgEvent).start.getD 0)])) :=
  ⟨rfl, c7_amended_empty_suppression _ _ _ rfl⟩

/-- Claim C8 counterexample: at a concrete event whose own `is_final` flag
is present and `False` and whose metadata flag is `True`, the outbound
`is_final` is `True`, refuting that a present-and-False event flag yields
`False` regardless of the metadata flag. -/
theorem c8_false_flag_overridden :
    process_deepgram_message
        ⟨some ⟨[⟨"ok", 5⟩]⟩, some false, some ⟨some true⟩, none, some 2⟩ =
      [OutMsg.transcript "ok" 5 true 2] ∧
    (⟨some ⟨[⟨"ok", 5⟩]⟩, some false, some ⟨some true⟩, none,
        some 2⟩ : DgEvent).is_final = some false := by
  decide

/-- Claim C8 amended: the metadata flag is consulted whenever the event
flag is falsy, not only when it is absent: with metadata flag `c`, an event
flag `some b` yields `b || c` (so `some false` with metadata `true` yields
`true`), and an absent event flag yields `c`. -/
theorem c8_amended_falsy_fallback (d : DgEvent) (b c : Bool)
    (hm : d.metadata = some ⟨some c⟩) :
    (d.is_final = some b → computeIsFinal d = (b || c)) ∧
    (d.is_final = none → computeIsFinal d = c) := by
  constructor
  · intro hb
    unfold computeIsFinal
    rw [hb, hm]
    cases b <;> simp
  · intro hb
    unfold computeIsFinal
    rw [hb, hm]
    simp

/-- Claim C8 amended, witness at a concrete event with event flag
`some false` and metadata flag `true`. -/
theorem c8_amended_falsy_fallback_witness :
    (⟨none, some false, some ⟨some true⟩, none, none⟩ : DgEvent).metadata =
      some ⟨some true⟩ ∧
    (((⟨none, some false, some ⟨some true⟩, none, none⟩ : DgEvent).is_final =
        some false →
      computeIsFinal ⟨none, some false, some ⟨some true⟩, none, none⟩ =
        (false || true)) ∧
    ((⟨none, some false, some ⟨some true⟩, none, none⟩ : DgEvent).is_final = none →
      computeIsFinal ⟨none, some false, some ⟨some true⟩, none, none⟩ = true)) :=
  ⟨rfl, c8_amended_falsy_fallback _ false true rfl⟩

/-- Claim C9: when the upstream `start` call fails, the handler raises, the
exception is caught and logged, and the handler returns having started no
keepalive task, no consumer task, and having forwarded no audio — the
session never becomes active, for every client message sequence. -/
theorem c9_start_failure_no_loops (msgs : List ClientMsg) :
    handleVoiceStream false msgs =
      ⟨[Ev.insertConn, Ev.startUpstream false, Ev.catchException, Ev.removeConn],
        true⟩ ∧
    Ev.startKeepalive ∉ (handleVoiceStream false msgs).trace ∧
    Ev.startConsumer ∉ (handleVoiceStream false msgs).trace ∧
    sendsOf (handleVoiceStream false msgs).trace = [] ∧
    Ev.catchException ∈ (handleVoiceStream false msgs).trace := by
  refine ⟨rfl, ?_, ?_, rfl, ?_⟩
  · show Ev.startKeepalive ∉ ([Ev.insertConn, Ev.startUpstream false,
      Ev.catchException, Ev.removeConn] : List Ev)
    decide
  · show Ev.startConsumer ∉ ([Ev.insertConn, Ev.startUpstream false,
      Ev.catchException, Ev.removeConn] : List Ev)
    decide
  · show Ev.catchException ∈ ([Ev.insertConn, Ev.startUpstream false,
      Ev.catchException, Ev.removeConn] : List Ev)
    decide

theorem run_returned_shape (startOk : Bool) (msgs : List ClientMsg)
    (h : (handleVoiceStream startOk msgs).returned = true) :
    ∃ p, (handleVoiceStream startOk msgs).trace =
      Ev.insertConn :: (p ++ [Ev.removeConn]) := by
  cases startOk with
  | false => exact ⟨[Ev.startUpstream false, Ev.catchException], rfl⟩
  | true =>
    cases hr : (relayTrace msgs).2 with
    | pending =>
      exfalso
      simp only [handleVoiceStream] at h
      rw [hr] at h
      simp at h
    | normal =>
      refine ⟨[Ev.startUpstream true, Ev.startKeepalive, Ev.startConsumer] ++
        (relayTrace msgs).1 ++
        [Ev.putSentinel, Ev.cancelConsumer, Ev.finish, Ev.cancelKeepalive], ?_⟩
      simp only [handleVoiceStream]
      rw [hr]
      simp
    | exn ok =>
      cases ok with
      | true =>
        refine ⟨[Ev.startUpstream true, Ev.startKeepalive, Ev.startConsumer] ++
          (relayTrace msgs).1 ++ [Ev.catchClosedOK, Ev.cancelKeepalive], ?_⟩
        simp only [handleVoiceStream]
        rw [hr]
        simp
      | false =>
        refine ⟨[Ev.startUpstream true, Ev.startKeepalive, Ev.startConsumer] ++
          (relayTrace msgs).1 ++ [Ev.catchException, Ev.cancelKeepalive], ?_⟩
        simp only [handleVoiceStream]
        rw [hr]
        simp

/-- Claim C10: whenever the handler returns, the first event of the run is
the insertion of the connection into `active_connections` and the last is
its removal in the `finally` block, and the connection id is absent from
the map afterwards whatever the initial map contents were. -/
theorem c10_connection_map_cleanup (startOk : Bool) (msgs : List ClientMsg)
    (cid : Nat) (m0 : List Nat)
    (h : (handleVoiceStream startOk msgs).returned = true) :
    (handleVoiceStream startOk msgs).trace.head? = some Ev.insertConn ∧
    (handleVoiceStream startOk msgs).trace.getLast? = some Ev.removeConn ∧
    cid ∉ finalMap cid m0 (handleVoiceStream startOk msgs).trace := by
  obtain ⟨p, hp⟩ := run_returned_shape startOk msgs h
  refine ⟨?_, ?_, ?_⟩
  · rw [hp]
    rfl
  · rw [hp, ← List.cons_append, List.getLast?_concat]
  · rw [hp]
    unfold finalMap
    rw [show Ev.insertConn :: (p ++ [Ev.removeConn]) =
      (Ev.insertConn :: p) ++ [Ev.removeConn] from rfl, List.foldl_append]
    simp [applyEv, List.mem_filter]

/-- Claim C10, witness at the concrete normal-disconnect run with
connection id 5 and an initial map already holding key 3. -/
theorem c10_connection_map_cleanup_witness :
    (handleVoiceStream true [ClientMsg.disconnect]).returned = true ∧
    ((handleVoiceStream true [ClientMsg.disconnect]).trace.head? =
      some Ev.insertConn ∧
    (handleVoiceStream true [ClientMsg.disconnect]).trace.getLast? =
      some Ev.removeConn ∧
    5 ∉ finalMap 5 [3] (handleVoiceStream true [ClientMsg.disconnect]).trace) :=
  ⟨rfl, c10_connection_map_cleanup true [ClientMsg.disconnect] 5 [3] rfl⟩

end VoiceService
